import Mathlib

/-!
# Verification of `monthly_sales_report.py`

A shallow embedding of the per-store processing engine of
`src/monthly_sales_report.py` (pandas over DBF extracts), together with
theorems settling the specified properties.

Modelling conventions:
* A DBF cell is a `Value`: a string, an integer, or null.  Numeric
  nulls follow pandas float `NaN` semantics: arithmetic with null yields
  null, `sum` skips nulls (an all-null or empty sum is `0`), `count`
  counts non-null entries.
* A `Row` is an association list from column name to `Value`; a `Table`
  is its ordered rows plus the list of column names (mirroring a pandas
  `DataFrame`).  A lookup of an absent column yields null.
* A store folder on disk is a `Folder`: a finite listing of file names
  with the table each file parses to.  `os.path.isfile` on a
  case-sensitive filesystem is membership of the literal file name in
  the listing.
* Group rows are produced in first-appearance order of their keys; the
  source lists groups in pandas key-sorted order.  This difference is
  immaterial to every property proved below, all of which are
  independent of the order of the grouped rows.
-/

namespace MonthlySalesReport

/-- A loosely typed scalar cell, as read from a DBF file or produced by a
merge: a string, a number, or null (pandas `NaN`/`None`). -/
inductive Value where
  | vStr : String → Value
  | vNum : ℤ → Value
  | vNull : Value
deriving DecidableEq, Repr

/-- A record: an association list from column name to cell value. -/
abbrev Row := List (String × Value)

/-- An in-memory DataFrame: the observed column names plus the ordered rows. -/
structure Table where
  cols : List String
  rows : List Row
deriving DecidableEq, Repr

/-- The empty DataFrame (`pd.DataFrame()`). -/
def Table.empty : Table := ⟨[], []⟩

/-- Emptiness test `df.empty`: no rows. -/
def Table.isEmpty (t : Table) : Bool := t.rows.isEmpty

/-- Cell access `row[c]`; an absent column reads as null. -/
def getV (r : Row) (c : String) : Value :=
  match r.lookup c with
  | some v => v
  | none => Value.vNull

/-- Write one cell of a row, replacing an existing binding in place or
appending a new one at the end (pandas column assignment, row-wise). -/
def setBinding (r : Row) (c : String) (v : Value) : Row :=
  if (r.lookup c).isSome then
    r.map (fun p => if p.1 == c then (c, v) else p)
  else
    r ++ [(c, v)]

/-- Column assignment `df[c] = f(row)`: adds `c` to the schema when new and
writes the cell of every row. -/
def setCol (t : Table) (c : String) (f : Row → Value) : Table :=
  ⟨if t.cols.contains c then t.cols else t.cols ++ [c],
   t.rows.map (fun r => setBinding r c (f r))⟩

/-- Column selection `df[cs]` (also realises the final null back-fill of the
source, since absent columns read as null). -/
def select (t : Table) (cs : List String) : Table :=
  ⟨cs, t.rows.map (fun r => cs.map (fun c => (c, getV r c)))⟩

/-- Column rename, as in pandas rename of column a to b. -/
def renameCol (t : Table) (a b : String) : Table :=
  ⟨t.cols.map (fun c => if c == a then b else c),
   t.rows.map (fun r => r.map (fun p => if p.1 == a then (b, p.2) else p))⟩

/-- Left merge `pd.merge(l, r, on=key, how="left")`: every left row survives; each
right-table match produces one output row, and a left row without a match
gets nulls in the right-hand columns.  Overlapping non-key column names
receive the pandas `_x`/`_y` suffixes. -/
def mergeLeft (l r : Table) (key : String) : Table :=
  let overlap := l.cols.filter (fun c => c != key && r.cols.contains c)
  let lRen : String → String := fun c => if overlap.contains c then c ++ "_x" else c
  let rRen : String → String := fun c => if overlap.contains c then c ++ "_y" else c
  let rOut := (r.cols.filter (fun c => c != key)).map rRen
  ⟨l.cols.map lRen ++ rOut,
   (l.rows.map (fun lr =>
      let lr' := lr.map (fun p => (lRen p.1, p.2))
      let ms := r.rows.filter (fun rr => getV rr key == getV lr key)
      match ms with
      | [] => [lr' ++ rOut.map (fun c => (c, Value.vNull))]
      | _ => ms.map (fun rr =>
          lr' ++ (rr.filter (fun p => p.1 != key)).map (fun p => (rRen p.1, p.2))))).flatten⟩

/-- Numeric multiplication with `NaN` propagation (`df.PRICE * df.QTY`). -/
def mulV : Value → Value → Value
  | Value.vNum a, Value.vNum b => Value.vNum (a * b)
  | _, _ => Value.vNull

/-- Numeric reading of a cell for summation: pandas `sum` skips null
(and the columns summed by the source are numeric), so null reads as `0`. -/
def toZ : Value → ℤ
  | Value.vNum q => q
  | _ => 0

/-- Non-null test: pandas `count` counts exactly the non-null cells. -/
def isNotNull : Value → Bool
  | Value.vNull => false
  | _ => true

/-- Python `str()` of a cell, for the store-name lookup. -/
def pyStr : Value → String
  | Value.vStr s => s
  | Value.vNum q => toString q
  | Value.vNull => "None"

/-- The grouping key of a row: its values at the grouping columns. -/
def keyOf (gcols : List String) (r : Row) : List Value :=
  gcols.map (getV r)

/-- Grouping
`df.groupby(gcols, dropna=False).agg(sale_amount=("line_amount", "sum"),
sale_count=("line_amount", "count")).reset_index()`: one row per distinct
key (null keys form their own groups), carrying the key values, the sum of
the non-null `line_amount` cells and their count. -/
def groupAgg (t : Table) (gcols : List String) : Table :=
  ⟨gcols ++ ["sale_amount", "sale_count"],
   ((t.rows.map (keyOf gcols)).dedup).map (fun k =>
      let ms := t.rows.filter (fun r => keyOf gcols r == k)
      (gcols.zip k) ++
        [("sale_amount", Value.vNum ((ms.map (fun r => toZ (getV r "line_amount"))).sum)),
         ("sale_count",
          Value.vNum (((ms.filter (fun r => isNotNull (getV r "line_amount"))).length : ℤ)))])⟩

/-- A store folder: the listing of file names present in the directory,
each with the table its DBF content parses to. -/
abbrev Folder := List (String × Table)

/-- Reader `read_dbf_to_df` (source lines 30-39): exact-name lookup of the file in
the directory listing; a missing file yields an empty DataFrame and a
warning diagnostic, never an error. -/
def read_dbf_to_df (folder : Folder) (fname : String) : Table × List String :=
  match folder.lookup fname with
  | some t => (t, [])
  | none => (Table.empty, ["Warning: Missing DBF: " ++ fname])

/-- The fixed seven-column output schema of the report. -/
def sevenCols : List String :=
  ["Astoreid", "Storename", "date", "Type", "sale_amount", "sale_count", "currency"]

/-- Step 3 of `process_store_data` (source lines 64-68): store display name
from the first row of `str.dbf` when present, else the store id. -/
def storeNameOf (df_str : Table) (store_id : String) : String :=
  match df_str.rows with
  | r :: _ => if df_str.cols.contains "NAME" then pyStr (getV r "NAME") else store_id
  | [] => store_id

/-- Step 5 (source lines 85-104): left-merge `jnh[["SALE", "DATE"]]` onto
`jnl` on `SALE` when possible, otherwise keep `jnl` and warn. -/
def mergeJnhStep (store_id : String) (df_jnl df_jnh : Table) : Table × List String :=
  if (!df_jnh.isEmpty) && df_jnh.cols.contains "SALE" && df_jnl.cols.contains "SALE" then
    if df_jnh.cols.contains "DATE" then
      (mergeLeft df_jnl (select df_jnh ["SALE", "DATE"]) "SALE", [])
    else
      (df_jnl,
       ["Warning: jnh missing DATE column for store " ++ store_id ++ ". Skipping date merge."])
  else if df_jnh.isEmpty then
    (df_jnl, ["Warning: No jnh data for store " ++ store_id ++ ". Skipping jnh merge."])
  else
    (df_jnl,
     ["Warning: jnh missing columns for store " ++ store_id ++ ". Skipping date merge."])

/-- Step 6 (source lines 106-129): left-merge `cat.dbf` on `CAT` when
possible; otherwise insert null placeholder `CODE` and `NAME` columns. -/
def mergeCatStep (store_id : String) (df_merged df_cat : Table) : Table × List String :=
  if (!df_cat.isEmpty) && df_cat.cols.contains "CAT" && df_merged.cols.contains "CAT" then
    (mergeLeft df_merged df_cat "CAT", [])
  else
    (setCol (setCol df_merged "CODE" (fun _ => Value.vNull)) "NAME" (fun _ => Value.vNull),
     [if df_cat.isEmpty then
        "Warning: cat.dbf missing or empty for store " ++ store_id ++ "."
      else
        "Warning: Could not merge cat for store " ++ store_id ++ "."])

/-- Step 7 (source lines 131-137): keep the rows whose `CODE` cell equals
the string `N` whenever a `CODE` column exists, otherwise warn and skip. -/
def filterCodeStep (df_merged : Table) : Table × List String :=
  if df_merged.cols.contains "CODE" then
    (⟨df_merged.cols, df_merged.rows.filter (fun r => getV r "CODE" == Value.vStr "N")⟩, [])
  else
    (df_merged, ["Warning: Merged data missing CODE column, skipping cat code filter."])

/-- Step 8 (source lines 139-152): line-level amount by column precedence:
`PRICE * QTY`, else `PRICE`, else `AMT`, else the constant `0`. -/
def lineAmountStep (store_id : String) (df_merged : Table) : Table × List String :=
  if df_merged.cols.contains "PRICE" then
    if df_merged.cols.contains "QTY" then
      (setCol df_merged "line_amount" (fun r => mulV (getV r "PRICE") (getV r "QTY")), [])
    else
      (setCol df_merged "line_amount" (fun r => getV r "PRICE"), [])
  else if df_merged.cols.contains "AMT" then
    (setCol df_merged "line_amount" (fun r => getV r "AMT"), [])
  else
    (setCol df_merged "line_amount" (fun _ => Value.vNum 0),
     ["Warning: No PRICE or AMT columns found in jnl for store " ++ store_id ++ "."])

/-- The grouping columns of step 9 (source lines 157-161): whichever of
`DATE` and `NAME` the merged schema contains. -/
def groupColsOf (t : Table) : List String :=
  (if t.cols.contains "DATE" then ["DATE"] else []) ++
    (if t.cols.contains "NAME" then ["NAME"] else [])

/-- Step 9 (source lines 154-178): group by the available grouping columns;
with no grouping column, a single row holding the total and the count. -/
def groupStep (t : Table) : Table :=
  if groupColsOf t ≠ [] then
    groupAgg t (groupColsOf t)
  else
    ⟨["sale_amount", "sale_count"],
     [[("sale_amount", Value.vNum ((t.rows.map (fun r => toZ (getV r "line_amount"))).sum)),
       ("sale_count",
        Value.vNum (((t.rows.filter (fun r => isNotNull (getV r "line_amount"))).length : ℤ)))]]⟩

/-- Step 10 (source lines 180-183): prepend the store id and store name
columns and attach the fixed `USD` currency column. -/
def metaStep (store_id store_name : String) (grouped : Table) : Table :=
  setCol
    ⟨"Astoreid" :: "Storename" :: grouped.cols,
     grouped.rows.map (fun r =>
       ("Astoreid", Value.vStr store_id) :: ("Storename", Value.vStr store_name) :: r)⟩
    "currency" (fun _ => Value.vStr "USD")

/-- Step 11, first half (source lines 185-189): rename `DATE` to `date` and
`NAME` to `Type` when those columns are present. -/
def renameStep (t : Table) : Table :=
  let g4 := if t.cols.contains "DATE" then renameCol t "DATE" "date" else t
  if g4.cols.contains "NAME" then renameCol g4 "NAME" "Type" else g4

/-- Steps 10-11 (source lines 180-214): attach store id, store name and the
`USD` currency literal, rename `DATE` to `date` and `NAME` to `Type`, and
select the seven-column schema, null back-filling absent columns. -/
def finalizeStep (store_id store_name : String) (grouped : Table) : Table :=
  select (renameStep (metaStep store_id store_name grouped)) sevenCols

/-- Pipeline `process_store_data` (source lines 42-214): the per-store engine,
returning the seven-column summary table and the warnings printed. -/
def process_store_data (store_id : String) (folder : Folder) : Table × List String :=
  let df_str := (read_dbf_to_df folder "str.dbf").1
  let w1 := (read_dbf_to_df folder "str.dbf").2
  let df_cat := (read_dbf_to_df folder "cat.dbf").1
  let w2 := (read_dbf_to_df folder "cat.dbf").2
  let df_jnh := (read_dbf_to_df folder "jnh.dbf").1
  let w3 := (read_dbf_to_df folder "jnh.dbf").2
  let df_jnl := (read_dbf_to_df folder "jnl.dbf").1
  let w4 := (read_dbf_to_df folder "jnl.dbf").2
  let store_name := storeNameOf df_str store_id
  if df_jnl.isEmpty then
    (⟨sevenCols, []⟩,
     w1 ++ w2 ++ w3 ++ w4 ++ ["Warning: No jnl data for store " ++ store_id ++ "."])
  else
    let m1 := (mergeJnhStep store_id df_jnl df_jnh).1
    let w5 := (mergeJnhStep store_id df_jnl df_jnh).2
    let m2 := (mergeCatStep store_id m1 df_cat).1
    let w6 := (mergeCatStep store_id m1 df_cat).2
    let m3 := (filterCodeStep m2).1
    let w7 := (filterCodeStep m2).2
    let m4 := (lineAmountStep store_id m3).1
    let w8 := (lineAmountStep store_id m3).2
    (finalizeStep store_id store_name (groupStep m4),
     w1 ++ w2 ++ w3 ++ w4 ++ w5 ++ w6 ++ w7 ++ w8)

/-- Driver `main` (source lines 225-233) at the row level: the final report rows
are the concatenation of the non-empty per-store results. -/
def mainRows (stores : List (String × Folder)) : List Row :=
  (((stores.map (fun p => (process_store_data p.1 p.2).1)).filter
      (fun t => !t.isEmpty)).map Table.rows).flatten

/-! ## Observables of the pipeline, named for the statements below -/

/-- The `str.dbf` table of a folder, as the source reads it. -/
def strOf (folder : Folder) : Table := (read_dbf_to_df folder "str.dbf").1

/-- The `cat.dbf` table of a folder, as the source reads it. -/
def catOf (folder : Folder) : Table := (read_dbf_to_df folder "cat.dbf").1

/-- The `jnh.dbf` table of a folder, as the source reads it. -/
def jnhOf (folder : Folder) : Table := (read_dbf_to_df folder "jnh.dbf").1

/-- The `jnl.dbf` table of a folder, as the source reads it. -/
def jnlOf (folder : Folder) : Table := (read_dbf_to_df folder "jnl.dbf").1

/-- The merged table after step 5 (the jnh date merge). -/
def merged1Of (store_id : String) (folder : Folder) : Table :=
  (mergeJnhStep store_id (jnlOf folder) (jnhOf folder)).1

/-- The merged table after step 6 (the cat merge or its placeholders). -/
def merged2Of (store_id : String) (folder : Folder) : Table :=
  (mergeCatStep store_id (merged1Of store_id folder) (catOf folder)).1

/-- The merged table after steps 5-7 (jnh merge, cat merge, category-code
filter), before the line-amount column is computed. -/
def merged3Of (store_id : String) (folder : Folder) : Table :=
  (filterCodeStep (merged2Of store_id folder)).1

/-- The merged table after step 8: the records that survived the category
filter, each carrying its computed `line_amount` cell. -/
def merged4Of (store_id : String) (folder : Folder) : Table :=
  (lineAmountStep store_id (merged3Of store_id folder)).1

/-- The records that reach the aggregation of step 9: none when the journal
table is absent or empty (early return of the source, lines 70-83),
otherwise the rows surviving the category filter. -/
def survivedRecords (store_id : String) (folder : Folder) : List Row :=
  if (jnlOf folder).isEmpty then [] else (merged4Of store_id folder).rows

/-- The aggregated table of step 9 (empty when the journal is absent or
empty, mirroring the early return of the source). -/
def groupedOf (store_id : String) (folder : Folder) : Table :=
  if (jnlOf folder).isEmpty then ⟨sevenCols, []⟩
  else groupStep (merged4Of store_id folder)

/-- The surviving records belonging to the same aggregation group as a given
grouped row (with no grouping columns, every surviving record). -/
def groupMembers (store_id : String) (folder : Folder) (row : Row) : List Row :=
  (survivedRecords store_id folder).filter
    (fun r => keyOf (groupColsOf (merged4Of store_id folder)) r ==
      keyOf (groupColsOf (merged4Of store_id folder)) row)

/-- Sum of the `sale_amount` cells over the rows of a table. -/
def totalSaleAmount (t : Table) : ℤ :=
  (t.rows.map (fun r => toZ (getV r "sale_amount"))).sum

/-- Sum of the `sale_count` cells over the rows of a table. -/
def totalSaleCount (t : Table) : ℤ :=
  (t.rows.map (fun r => toZ (getV r "sale_count"))).sum

/-! ## Definitions following the words of the spec, for comparison -/

/-- Modelled from the spec (section 4.3, Sale-Event Reconstructor, which has
no counterpart in the source): the number of adjacent index pairs
`(i, i + 1)` of the journal whose `LINE` cells are the literal markers
`950` and `980`; the spec makes this the number of emitted SaleEvents,
each of count 1. -/
def countPairs950980 (t : Table) : Nat :=
  ((t.rows.zip t.rows.tail).filter
    (fun p => getV p.1 "LINE" == Value.vStr "950" &&
      getV p.2 "LINE" == Value.vStr "980")).length

/-- Character-wise lower-casing of a file name (the case-insensitive
comparison key of the spec). -/
def lowerName (s : String) : List Char := s.data.map Char.toLower

/-- Modelled from the spec (section 4.1): whether some file of the folder
matches the expected file name case-insensitively. -/
def specResolvesCaseInsensitive (folder : Folder) (fname : String) : Bool :=
  folder.any (fun p => lowerName p.1 == lowerName fname)

/-! ## Concrete inputs used by the counterexamples and witnesses -/

/-- A journal holding exactly one adjacent `950`/`980` line pair. -/
def jnlPair : Table :=
  ⟨["LINE", "CAT", "PRICE", "QTY", "DESCRIPT"],
   [[("LINE", Value.vStr "950"), ("CAT", Value.vStr "A"), ("PRICE", Value.vNum 10),
     ("QTY", Value.vNum 1), ("DESCRIPT", Value.vNull)],
    [("LINE", Value.vStr "980"), ("CAT", Value.vStr "A"), ("PRICE", Value.vNum 5),
     ("QTY", Value.vNum 1), ("DESCRIPT", Value.vStr "Cash")]]⟩

/-- A category table whose single category carries the inclusion code. -/
def catN : Table :=
  ⟨["CAT", "CODE", "NAME"],
   [[("CAT", Value.vStr "A"), ("CODE", Value.vStr "N"), ("NAME", Value.vStr "Sale")]]⟩

/-- Folder with the paired journal and a matching included category. -/
def folderPair : Folder := [("jnl.dbf", jnlPair), ("cat.dbf", catN)]

/-- A one-record journal with only price and quantity columns. -/
def jnlPlain : Table :=
  ⟨["PRICE", "QTY"], [[("PRICE", Value.vNum 10), ("QTY", Value.vNum 1)]]⟩

/-- Folder with a one-record journal and no category table at all. -/
def folderNoCat : Folder := [("jnl.dbf", jnlPlain)]

/-- A one-record journal carrying a category reference. -/
def jnlCatX : Table :=
  ⟨["CAT", "PRICE", "QTY"],
   [[("CAT", Value.vStr "X"), ("PRICE", Value.vNum 1), ("QTY", Value.vNum 1)]]⟩

/-- A category table without a `NAME` column whose single code is not the
inclusion code. -/
def catNoName : Table :=
  ⟨["CAT", "CODE"], [[("CAT", Value.vStr "X"), ("CODE", Value.vStr "Y")]]⟩

/-- Folder whose single journal record is excluded by the category filter
and whose merged schema has no grouping column. -/
def folderNoGroupCols : Folder := [("jnl.dbf", jnlCatX), ("cat.dbf", catNoName)]

/-- A one-record journal whose price cell is null. -/
def jnlNullPrice : Table :=
  ⟨["CAT", "PRICE", "QTY"],
   [[("CAT", Value.vStr "A"), ("PRICE", Value.vNull), ("QTY", Value.vNum 1)]]⟩

/-- A category table mapping the journal record to an included, named
category. -/
def catT : Table :=
  ⟨["CAT", "CODE", "NAME"],
   [[("CAT", Value.vStr "A"), ("CODE", Value.vStr "N"), ("NAME", Value.vStr "T")]]⟩

/-- Folder whose single surviving record has a null line amount. -/
def folderNullPrice : Folder := [("jnl.dbf", jnlNullPrice), ("cat.dbf", catT)]

/-- A folder whose journal file is present only under upper-case spelling. -/
def folderUpper : Folder := [("JNL.DBF", jnlPlain)]

/-- The empty store folder: no files at all. -/
def folderEmpty : Folder := []

/-- A store reference table with a `NAME` column. -/
def strShop : Table := ⟨["NAME"], [[("NAME", Value.vStr "Shop")]]⟩

/-- Folder with a store reference table, a journal, and reference tables. -/
def folderShop : Folder :=
  [("str.dbf", strShop), ("jnl.dbf", jnlPair), ("cat.dbf", catN)]

/-! ## General list lemmas used by the aggregation proofs -/

/-- Splitting a sum over a list by a Boolean predicate. -/
theorem sum_filter_add_sum_filter_not {α : Type} (p : α → Bool) (f : α → ℤ) (l : List α) :
    ((l.filter p).map f).sum + ((l.filter (fun a => !p a)).map f).sum = (l.map f).sum := by
  induction l with
  | nil => simp
  | cons a l ih =>
    by_cases h : p a = true
    · simp [h, ← ih]
      ring
    · simp [h, ← ih]
      ring

/-- The length of a filtered list as a sum of indicator values. -/
theorem length_filter_as_sum {α : Type} (p : α → Bool) (l : List α) :
    (((l.filter p).length : ℤ)) = (l.map (fun a => if p a then (1 : ℤ) else 0)).sum := by
  induction l with
  | nil => simp
  | cons a l ih =>
    by_cases h : p a = true
    · simp [h, ← ih]
      ring
    · simp [h, ← ih]

/-- Summing group-by-group over a duplicate-free list of keys that covers
every element reproduces the total sum. -/
theorem sum_over_partition {α κ : Type} [BEq κ] [LawfulBEq κ] (g : α → κ) (f : α → ℤ) :
    ∀ ks : List κ, ks.Nodup → ∀ l : List α, (∀ a ∈ l, g a ∈ ks) →
      (ks.map (fun k => ((l.filter (fun a => g a == k)).map f).sum)).sum = (l.map f).sum := by
  intro ks
  induction ks with
  | nil =>
    intro _ l hl
    cases l with
    | nil => simp
    | cons a l => exact absurd (hl a (by simp)) (by simp)
  | cons k ks ih =>
    intro hnd l hl
    have hkk : k ∉ ks := (List.nodup_cons.mp hnd).1
    have hrest : ∀ k2 ∈ ks,
        l.filter (fun a => g a == k2) =
          (l.filter (fun a => !(g a == k))).filter (fun a => g a == k2) := by
      intro k2 hk2
      rw [List.filter_filter]
      apply List.filter_congr
      intro a _
      cases hb : (g a == k2) with
      | false => simp
      | true =>
        have hne : (g a == k) = false := by
          have h1 : g a = k2 := eq_of_beq hb
          have h2 : k2 ≠ k := fun e => hkk (e ▸ hk2)
          exact beq_eq_false_iff_ne.mpr (by rw [h1]; exact h2)
        simp [hne]
    have hcov : ∀ a ∈ l.filter (fun a => !(g a == k)), g a ∈ ks := by
      intro a ha
      have hmem := List.mem_filter.mp ha
      have hin := hl a hmem.1
      have hne : g a ≠ k := by
        intro e
        rw [e] at hmem
        simp at hmem
      simp only [List.mem_cons] at hin
      exact hin.resolve_left hne
    calc ((k :: ks).map (fun k2 => ((l.filter (fun a => g a == k2)).map f).sum)).sum
        = ((l.filter (fun a => g a == k)).map f).sum +
            (ks.map (fun k2 => ((l.filter (fun a => g a == k2)).map f).sum)).sum := by
          simp
      _ = ((l.filter (fun a => g a == k)).map f).sum +
            (ks.map (fun k2 =>
              (((l.filter (fun a => !(g a == k))).filter (fun a => g a == k2)).map f).sum)).sum := by
          have hmapeq :
              ks.map (fun k2 => ((l.filter (fun a => g a == k2)).map f).sum) =
                ks.map (fun k2 =>
                  (((l.filter (fun a => !(g a == k))).filter
                    (fun a => g a == k2)).map f).sum) :=
            List.map_congr_left (fun k2 hk2 => by rw [hrest k2 hk2])
          rw [hmapeq]
      _ = ((l.filter (fun a => g a == k)).map f).sum +
            ((l.filter (fun a => !(g a == k))).map f).sum := by
          rw [ih (List.nodup_cons.mp hnd).2 _ hcov]
      _ = (l.map f).sum := sum_filter_add_sum_filter_not _ f l

/-! ## Cell-access lemmas -/

/-- A disequality under `==` is symmetric. -/
theorem beq_false_symm {κ : Type} [BEq κ] [LawfulBEq κ] (a b : κ) (h : (a == b) = false) :
    (b == a) = false :=
  beq_eq_false_iff_ne.mpr (Ne.symm (beq_eq_false_iff_ne.mp h))

/-- Association lookup skips a head entry with a different key. -/
theorem lookup_cons_ne {β : Type} (k c : String) (w : β) (r : List (String × β))
    (h : (c == k) = false) : ((k, w) :: r).lookup c = r.lookup c := by
  simp [List.lookup, h]

/-- Association lookup finds a head entry with its own key. -/
theorem lookup_cons_self {β : Type} (c : String) (w : β) (r : List (String × β)) :
    ((c, w) :: r).lookup c = some w := by
  simp [List.lookup]

/-- Cell access skips a foreign head binding. -/
theorem getV_cons_ne (k c : String) (v : Value) (r : Row) (h : (c == k) = false) :
    getV ((k, v) :: r) c = getV r c := by
  unfold getV
  rw [lookup_cons_ne k c v r h]

/-- Cell access finds the head binding of its own column. -/
theorem getV_cons_self (c : String) (v : Value) (r : Row) : getV ((c, v) :: r) c = v := by
  unfold getV
  rw [lookup_cons_self]

/-- Replacing the bindings of one column leaves the reads of any other
column unchanged. -/
theorem getV_mapReplace_ne (c c2 : String) (v : Value) (h : (c2 == c) = false) :
    ∀ r : Row, getV (r.map (fun q => if q.1 == c then (c, v) else q)) c2 = getV r c2 := by
  intro r
  induction r with
  | nil => rfl
  | cons p r ih =>
    obtain ⟨k, w⟩ := p
    by_cases hk : (k == c) = true
    · have hk2 : (c2 == k) = false := by rw [eq_of_beq hk]; exact h
      simp only [List.map_cons]
      rw [if_pos hk, getV_cons_ne _ _ _ _ h, getV_cons_ne _ _ _ _ hk2]
      exact ih
    · simp only [List.map_cons]
      rw [if_neg hk]
      by_cases hk2 : (c2 == k) = true
      · rw [eq_of_beq hk2, getV_cons_self, getV_cons_self]
      · have hk2f : (c2 == k) = false := by simpa using hk2
        rw [getV_cons_ne _ _ _ _ hk2f, getV_cons_ne _ _ _ _ hk2f]
        exact ih

/-- Appending a binding of one column leaves the reads of any other column
unchanged. -/
theorem getV_append_single_ne (c c2 : String) (v : Value) (h : (c2 == c) = false) :
    ∀ r : Row, getV (r ++ [(c, v)]) c2 = getV r c2 := by
  intro r
  induction r with
  | nil => simpa using getV_cons_ne c c2 v [] h
  | cons p r ih =>
    obtain ⟨k, w⟩ := p
    by_cases hk2 : (c2 == k) = true
    · rw [← eq_of_beq hk2, List.cons_append, getV_cons_self, getV_cons_self]
    · have hk2f : (c2 == k) = false := by simpa using hk2
      rw [List.cons_append, getV_cons_ne _ _ _ _ hk2f, getV_cons_ne _ _ _ _ hk2f]
      exact ih

/-- Writing one cell leaves the other columns unchanged. -/
theorem getV_setBinding_ne (r : Row) (c c2 : String) (v : Value) (h : (c2 == c) = false) :
    getV (setBinding r c v) c2 = getV r c2 := by
  unfold setBinding
  split
  · exact getV_mapReplace_ne c c2 v h r
  · exact getV_append_single_ne c c2 v h r

/-- Replacing the bindings of a column that is bound makes it read the new
value. -/
theorem getV_mapReplace_self (c : String) (v : Value) :
    ∀ r : Row, (r.lookup c).isSome = true →
      getV (r.map (fun q => if q.1 == c then (c, v) else q)) c = v := by
  intro r
  induction r with
  | nil => intro h; simp [List.lookup] at h
  | cons p r ih =>
    obtain ⟨k, w⟩ := p
    intro hs
    by_cases hk : (k == c) = true
    · simp only [List.map_cons]
      rw [if_pos hk, getV_cons_self]
    · have hkf : (k == c) = false := by simpa using hk
      have hcf : (c == k) = false := beq_false_symm _ _ hkf
      have hs2 : (r.lookup c).isSome = true := by
        rwa [lookup_cons_ne k c w r hcf] at hs
      simp only [List.map_cons]
      rw [if_neg hk, getV_cons_ne _ _ _ _ hcf]
      exact ih hs2

/-- Appending a binding of an unbound column makes it read the new value. -/
theorem getV_append_single_self (c : String) (v : Value) :
    ∀ r : Row, r.lookup c = none → getV (r ++ [(c, v)]) c = v := by
  intro r
  induction r with
  | nil => intro _; simpa using getV_cons_self c v []
  | cons p r ih =>
    obtain ⟨k, w⟩ := p
    intro hn
    by_cases hck : (c == k) = true
    · rw [← eq_of_beq hck, lookup_cons_self] at hn
      exact absurd hn (by simp)
    · have hckf : (c == k) = false := by simpa using hck
      rw [lookup_cons_ne k c w r hckf] at hn
      rw [List.cons_append, getV_cons_ne _ _ _ _ hckf]
      exact ih hn

/-- Writing a cell makes it readable. -/
theorem getV_setBinding_self (r : Row) (c : String) (v : Value) :
    getV (setBinding r c v) c = v := by
  unfold setBinding
  split
  · exact getV_mapReplace_self c v r (by assumption)
  · exact getV_append_single_self c v r
      (Option.not_isSome_iff_eq_none.mp (by assumption))

/-- Renaming one column leaves the reads of unrelated columns unchanged. -/
theorem getV_renameRow_ne (a b c : String) (ha : (c == a) = false) (hb : (c == b) = false) :
    ∀ r : Row, getV (r.map (fun p => if p.1 == a then (b, p.2) else p)) c = getV r c := by
  intro r
  induction r with
  | nil => rfl
  | cons p r ih =>
    obtain ⟨k, w⟩ := p
    by_cases hk : (k == a) = true
    · have hck : (c == k) = false := by rw [eq_of_beq hk]; exact ha
      simp only [List.map_cons]
      rw [if_pos hk, getV_cons_ne _ _ _ _ hb, getV_cons_ne _ _ _ _ hck]
      exact ih
    · simp only [List.map_cons]
      rw [if_neg hk]
      by_cases hck : (c == k) = true
      · have he := eq_of_beq hck
        subst he
        rw [getV_cons_self, getV_cons_self]
      · have hckf : (c == k) = false := by simpa using hck
        rw [getV_cons_ne _ _ _ _ hckf, getV_cons_ne _ _ _ _ hckf]
        exact ih

/-- Reading a selected column of a projected row reads the original row. -/
theorem getV_selectRow (r : Row) (c : String) :
    ∀ cs : List String, c ∈ cs →
      getV (cs.map (fun c2 => (c2, getV r c2))) c = getV r c := by
  intro cs
  induction cs with
  | nil => intro h; exact absurd h (List.not_mem_nil c)
  | cons c0 cs ih =>
    intro h
    by_cases hc : (c == c0) = true
    · have he := eq_of_beq hc
      subst he
      simp only [List.map_cons]
      rw [getV_cons_self]
    · have hcf : (c == c0) = false := by simpa using hc
      have hm : c ∈ cs := by
        rcases List.mem_cons.mp h with he | hm
        · exact absurd he (by simpa using hcf)
        · exact hm
      simp only [List.map_cons]
      rw [getV_cons_ne _ _ _ _ hcf]
      exact ih hm

/-- Renaming a column preserves membership tests for unrelated columns. -/
theorem contains_renameCol_other (t : Table) (a b x : String)
    (hxa : (x == a) = false) (hxb : (x == b) = false) :
    (renameCol t a b).cols.contains x = t.cols.contains x := by
  show (t.cols.map (fun c => if c == a then b else c)).contains x = t.cols.contains x
  induction t.cols with
  | nil => rfl
  | cons c0 cs ih =>
    by_cases hc : (c0 == a) = true
    · have hxc : (x == c0) = false := by rw [eq_of_beq hc]; exact hxa
      simp only [List.map_cons]
      rw [if_pos hc]
      simp only [List.contains_cons, hxc, hxb, Bool.false_or]
      exact ih
    · simp only [List.map_cons]
      rw [if_neg hc]
      simp only [List.contains_cons]
      rw [ih]

/-! ## Structure of the pipeline output -/

/-- The source pipeline, written through the named stage observables. -/
theorem process_store_data_eq (sid : String) (folder : Folder) :
    process_store_data sid folder =
      if (jnlOf folder).isEmpty then
        (⟨sevenCols, []⟩,
         (read_dbf_to_df folder "str.dbf").2 ++ (read_dbf_to_df folder "cat.dbf").2 ++
           (read_dbf_to_df folder "jnh.dbf").2 ++ (read_dbf_to_df folder "jnl.dbf").2 ++
           ["Warning: No jnl data for store " ++ sid ++ "."])
      else
        (finalizeStep sid (storeNameOf (strOf folder) sid) (groupStep (merged4Of sid folder)),
         (read_dbf_to_df folder "str.dbf").2 ++ (read_dbf_to_df folder "cat.dbf").2 ++
           (read_dbf_to_df folder "jnh.dbf").2 ++ (read_dbf_to_df folder "jnl.dbf").2 ++
           (mergeJnhStep sid (jnlOf folder) (jnhOf folder)).2 ++
           (mergeCatStep sid (merged1Of sid folder) (catOf folder)).2 ++
           (filterCodeStep (merged2Of sid folder)).2 ++
           (lineAmountStep sid (merged3Of sid folder)).2) := rfl

/-- With an empty journal the pipeline returns the empty seven-column
table. -/
theorem process_fst_empty (sid : String) (folder : Folder)
    (h : (jnlOf folder).isEmpty = true) :
    (process_store_data sid folder).1 = ⟨sevenCols, []⟩ := by
  rw [process_store_data_eq, if_pos h]

/-- With a non-empty journal the pipeline output is the finalization of the
grouped merged table. -/
theorem process_fst_nonempty (sid : String) (folder : Folder)
    (h : (jnlOf folder).isEmpty = false) :
    (process_store_data sid folder).1 =
      finalizeStep sid (storeNameOf (strOf folder) sid)
        (groupStep (merged4Of sid folder)) := by
  rw [process_store_data_eq, if_neg (by simp [h])]

/-- The conditional renames of step 11, decided by the pre-rename schema. -/
theorem renameStep_eq (t : Table) :
    renameStep t =
      if t.cols.contains "DATE" then
        if t.cols.contains "NAME" then
          renameCol (renameCol t "DATE" "date") "NAME" "Type"
        else renameCol t "DATE" "date"
      else
        if t.cols.contains "NAME" then renameCol t "NAME" "Type" else t := by
  simp only [renameStep]
  by_cases h1 : t.cols.contains "DATE" = true
  · rw [if_pos h1, if_pos h1,
      contains_renameCol_other t "DATE" "date" "NAME" (by decide) (by decide)]
  · rw [if_neg h1, if_neg h1]

/-- Renaming a column does not change the reads of unrelated columns,
row by row. -/
theorem map_getV_renameCol (t : Table) (a b c : String)
    (ha : (c == a) = false) (hb : (c == b) = false) :
    (renameCol t a b).rows.map (fun r => getV r c) = t.rows.map (fun r => getV r c) := by
  show (t.rows.map (fun r => r.map (fun p => if p.1 == a then (b, p.2) else p))).map
      (fun r => getV r c) = t.rows.map (fun r => getV r c)
  rw [List.map_map]
  exact List.map_congr_left (fun r _ => getV_renameRow_ne a b c ha hb r)

/-- The rename step does not change the reads of unrelated columns. -/
theorem map_getV_renameStep (t : Table) (c : String)
    (h4 : (c == "DATE") = false) (h5 : (c == "date") = false)
    (h6 : (c == "NAME") = false) (h7 : (c == "Type") = false) :
    (renameStep t).rows.map (fun r => getV r c) = t.rows.map (fun r => getV r c) := by
  rw [renameStep_eq]
  by_cases h1 : t.cols.contains "DATE" = true
  · rw [if_pos h1]
    by_cases h2 : t.cols.contains "NAME" = true
    · rw [if_pos h2, map_getV_renameCol _ _ _ _ h6 h7, map_getV_renameCol _ _ _ _ h4 h5]
    · rw [if_neg h2, map_getV_renameCol _ _ _ _ h4 h5]
  · rw [if_neg h1]
    by_cases h2 : t.cols.contains "NAME" = true
    · rw [if_pos h2, map_getV_renameCol _ _ _ _ h6 h7]
    · rw [if_neg h2]

/-- The metadata step does not change the reads of the aggregate columns. -/
theorem map_getV_metaStep (sid name : String) (grouped : Table) (c : String)
    (h1 : (c == "Astoreid") = false) (h2 : (c == "Storename") = false)
    (h3 : (c == "currency") = false) :
    (metaStep sid name grouped).rows.map (fun r => getV r c) =
      grouped.rows.map (fun r => getV r c) := by
  show ((grouped.rows.map (fun r =>
      ("Astoreid", Value.vStr sid) :: ("Storename", Value.vStr name) :: r)).map
        (fun r => setBinding r "currency" (Value.vStr "USD"))).map (fun r => getV r c) =
    grouped.rows.map (fun r => getV r c)
  rw [List.map_map, List.map_map]
  apply List.map_congr_left
  intro r _
  show getV (setBinding
      (("Astoreid", Value.vStr sid) :: ("Storename", Value.vStr name) :: r)
      "currency" (Value.vStr "USD")) c = getV r c
  rw [getV_setBinding_ne _ _ _ _ h3, getV_cons_ne _ _ _ _ h1, getV_cons_ne _ _ _ _ h2]

/-- Selecting a schema containing a column preserves its reads. -/
theorem map_getV_select (t : Table) (cs : List String) (c : String) (h : c ∈ cs) :
    (select t cs).rows.map (fun r => getV r c) = t.rows.map (fun r => getV r c) := by
  show (t.rows.map (fun r => cs.map (fun c2 => (c2, getV r c2)))).map (fun r => getV r c) =
    t.rows.map (fun r => getV r c)
  rw [List.map_map]
  exact List.map_congr_left (fun r _ => getV_selectRow r c cs h)

/-- The finalize step does not change the reads of the aggregate columns. -/
theorem map_getV_finalizeStep (sid name : String) (grouped : Table) (c : String)
    (hmem : c ∈ sevenCols)
    (h1 : (c == "Astoreid") = false) (h2 : (c == "Storename") = false)
    (h3 : (c == "currency") = false) (h4 : (c == "DATE") = false)
    (h5 : (c == "date") = false) (h6 : (c == "NAME") = false)
    (h7 : (c == "Type") = false) :
    (finalizeStep sid name grouped).rows.map (fun r => getV r c) =
      grouped.rows.map (fun r => getV r c) := by
  unfold finalizeStep
  rw [map_getV_select _ _ _ hmem, map_getV_renameStep _ _ h4 h5 h6 h7,
    map_getV_metaStep _ _ _ _ h1 h2 h3]

/-- The finalize step preserves the number of rows. -/
theorem length_finalizeStep (sid name : String) (grouped : Table) :
    (finalizeStep sid name grouped).rows.length = grouped.rows.length := by
  have hren : ∀ t : Table, (renameStep t).rows.length = t.rows.length := by
    intro t
    rw [renameStep_eq]
    by_cases h1 : t.cols.contains "DATE" = true
    · by_cases h2 : t.cols.contains "NAME" = true
      · rw [if_pos h1, if_pos h2]; simp [renameCol]
      · rw [if_pos h1, if_neg h2]; simp [renameCol]
    · by_cases h2 : t.cols.contains "NAME" = true
      · rw [if_neg h1, if_pos h2]; simp [renameCol]
      · rw [if_neg h1, if_neg h2]
  have hmeta : (metaStep sid name grouped).rows.length = grouped.rows.length := by
    show (((grouped.rows.map _).map _)).length = grouped.rows.length
    simp
  show ((renameStep (metaStep sid name grouped)).rows.map _).length = grouped.rows.length
  rw [List.length_map, hren, hmeta]

/-- Every row produced by the metadata step reads the store metadata and
the currency literal. -/
theorem metaStep_mem (sid name : String) (grouped : Table) (r3 : Row)
    (h : r3 ∈ (metaStep sid name grouped).rows) :
    getV r3 "currency" = Value.vStr "USD" ∧ getV r3 "Storename" = Value.vStr name ∧
      getV r3 "Astoreid" = Value.vStr sid := by
  have h2 : r3 ∈ (grouped.rows.map (fun r =>
      ("Astoreid", Value.vStr sid) :: ("Storename", Value.vStr name) :: r)).map
        (fun r => setBinding r "currency" (Value.vStr "USD")) := h
  rw [List.map_map] at h2
  obtain ⟨r1, hmem, heq⟩ := List.mem_map.mp h2
  have heq2 : setBinding
      (("Astoreid", Value.vStr sid) :: ("Storename", Value.vStr name) :: r1)
      "currency" (Value.vStr "USD") = r3 := heq
  refine ⟨?_, ?_, ?_⟩
  · rw [← heq2, getV_setBinding_self]
  · rw [← heq2, getV_setBinding_ne _ _ _ _ (by decide),
      getV_cons_ne _ _ _ _ (by decide), getV_cons_self]
  · rw [← heq2, getV_setBinding_ne _ _ _ _ (by decide), getV_cons_self]

/-- The rename step maps each row pointwise, preserving the reads of
columns unrelated to the renames. -/
theorem renameStep_rows (t : Table) :
    ∃ f : Row → Row, (renameStep t).rows = t.rows.map f ∧
      ∀ c : String, (c == "DATE") = false → (c == "date") = false →
        (c == "NAME") = false → (c == "Type") = false →
        ∀ r, getV (f r) c = getV r c := by
  rw [renameStep_eq]
  by_cases h1 : t.cols.contains "DATE" = true
  · by_cases h2 : t.cols.contains "NAME" = true
    · rw [if_pos h1, if_pos h2]
      refine ⟨fun r => (r.map (fun p => if p.1 == "DATE" then ("date", p.2) else p)).map
        (fun p => if p.1 == "NAME" then ("Type", p.2) else p), ?_, ?_⟩
      · show ((t.rows.map _).map _) = _
        rw [List.map_map]
        rfl
      · intro c h4 h5 h6 h7 r
        rw [getV_renameRow_ne _ _ _ h6 h7, getV_renameRow_ne _ _ _ h4 h5]
    · rw [if_pos h1, if_neg h2]
      refine ⟨fun r => r.map (fun p => if p.1 == "DATE" then ("date", p.2) else p), ?_, ?_⟩
      · rfl
      intro c h4 h5 _ _ r
      rw [getV_renameRow_ne _ _ _ h4 h5]
  · by_cases h2 : t.cols.contains "NAME" = true
    · rw [if_neg h1, if_pos h2]
      refine ⟨fun r => r.map (fun p => if p.1 == "NAME" then ("Type", p.2) else p), ?_, ?_⟩
      · rfl
      intro c _ _ h6 h7 r
      rw [getV_renameRow_ne _ _ _ h6 h7]
    · rw [if_neg h1, if_neg h2]
      exact ⟨id, (List.map_id t.rows).symm, fun _ _ _ _ _ _ => rfl⟩

/-- Every output row of the finalize step carries the seven-column schema
in order, the currency literal, and the store metadata. -/
theorem finalizeStep_mem (sid name : String) (grouped : Table) (r : Row)
    (h : r ∈ (finalizeStep sid name grouped).rows) :
    r.map Prod.fst = sevenCols ∧ getV r "currency" = Value.vStr "USD" ∧
      getV r "Storename" = Value.vStr name ∧ getV r "Astoreid" = Value.vStr sid := by
  have hsel : r ∈ (renameStep (metaStep sid name grouped)).rows.map
      (fun r0 => sevenCols.map (fun c => (c, getV r0 c))) := h
  obtain ⟨r5, h5mem, heq⟩ := List.mem_map.mp hsel
  obtain ⟨f, hfrows, hfget⟩ := renameStep_rows (metaStep sid name grouped)
  rw [hfrows] at h5mem
  obtain ⟨r3, h3mem, heq3⟩ := List.mem_map.mp h5mem
  have hmeta := metaStep_mem sid name grouped r3 h3mem
  have heqr : sevenCols.map (fun c => (c, getV r5 c)) = r := heq
  refine ⟨?_, ?_, ?_, ?_⟩
  · rw [← heqr, List.map_map]
    show sevenCols.map (fun c => c) = sevenCols
    exact List.map_id sevenCols
  · rw [← heqr, getV_selectRow r5 "currency" sevenCols (by decide), ← heq3,
      hfget "currency" (by decide) (by decide) (by decide) (by decide)]
    exact hmeta.1
  · rw [← heqr, getV_selectRow r5 "Storename" sevenCols (by decide), ← heq3,
      hfget "Storename" (by decide) (by decide) (by decide) (by decide)]
    exact hmeta.2.1
  · rw [← heqr, getV_selectRow r5 "Astoreid" sevenCols (by decide), ← heq3,
      hfget "Astoreid" (by decide) (by decide) (by decide) (by decide)]
    exact hmeta.2.2

/-- The finalize step maps each grouped row pointwise, preserving the
reads of the aggregate columns. -/
theorem finalizeStep_rows_fun (sid name : String) (grouped : Table) :
    ∃ F : Row → Row, (finalizeStep sid name grouped).rows = grouped.rows.map F ∧
      ∀ c : String, c ∈ sevenCols →
        (c == "Astoreid") = false → (c == "Storename") = false →
        (c == "currency") = false → (c == "DATE") = false → (c == "date") = false →
        (c == "NAME") = false → (c == "Type") = false →
        ∀ r, getV (F r) c = getV r c := by
  obtain ⟨f, hfrows, hfget⟩ := renameStep_rows (metaStep sid name grouped)
  refine ⟨fun r => sevenCols.map (fun c => (c, getV (f (setBinding
      (("Astoreid", Value.vStr sid) :: ("Storename", Value.vStr name) :: r)
      "currency" (Value.vStr "USD"))) c)), ?_, ?_⟩
  · show (renameStep (metaStep sid name grouped)).rows.map
        (fun r0 => sevenCols.map (fun c => (c, getV r0 c))) = _
    rw [hfrows]
    show ((((grouped.rows.map (fun r =>
        ("Astoreid", Value.vStr sid) :: ("Storename", Value.vStr name) :: r)).map
          (fun r => setBinding r "currency" (Value.vStr "USD"))).map f).map
            (fun r0 => sevenCols.map (fun c => (c, getV r0 c)))) = _
    rw [List.map_map, List.map_map, List.map_map]
    rfl
  · intro c hmem h1 h2 h3 h4 h5 h6 h7 r
    show getV (sevenCols.map (fun c2 => (c2, getV (f (setBinding
        (("Astoreid", Value.vStr sid) :: ("Storename", Value.vStr name) :: r)
        "currency" (Value.vStr "USD"))) c2))) c = getV r c
    rw [getV_selectRow _ c sevenCols hmem, hfget c h4 h5 h6 h7,
      getV_setBinding_ne _ _ _ _ h3, getV_cons_ne _ _ _ _ h1, getV_cons_ne _ _ _ _ h2]

/-! ## Aggregation lemmas -/

/-- Cell access skips a block of foreign bindings. -/
theorem getV_append_skip (c : String) :
    ∀ ps qs : Row, (∀ p ∈ ps, (c == p.1) = false) → getV (ps ++ qs) c = getV qs c := by
  intro ps qs
  induction ps with
  | nil => intro _; rfl
  | cons p ps ih =>
    intro h
    obtain ⟨k, w⟩ := p
    rw [List.cons_append, getV_cons_ne _ _ _ _ (h (k, w) (List.mem_cons_self _ _))]
    exact ih (fun q hq => h q (List.mem_cons_of_mem _ hq))

/-- Keys zipped with group columns only bind group-column names. -/
theorem zip_keys_skip (gcols : List String) (k : List Value) (c : String)
    (h : c ∉ gcols) : ∀ p ∈ gcols.zip k, (c == p.1) = false := by
  intro p hp
  have h1 : p.1 ∈ gcols := List.of_mem_zip hp |>.1
  exact beq_eq_false_iff_ne.mpr (fun e => h (e ▸ h1))

/-- Total `sale_amount` of a grouped table equals the total line amount. -/
theorem totalSaleAmount_groupAgg (t : Table) (gcols : List String)
    (h : "sale_amount" ∉ gcols) :
    totalSaleAmount (groupAgg t gcols) =
      (t.rows.map (fun r => toZ (getV r "line_amount"))).sum := by
  show ((((t.rows.map (keyOf gcols)).dedup).map (fun k =>
      (gcols.zip k) ++
        [("sale_amount", Value.vNum
            (((t.rows.filter (fun r => keyOf gcols r == k)).map
              (fun r => toZ (getV r "line_amount"))).sum)),
         ("sale_count", Value.vNum
            ((((t.rows.filter (fun r => keyOf gcols r == k)).filter
              (fun r => isNotNull (getV r "line_amount"))).length : ℤ)))])).map
        (fun r => toZ (getV r "sale_amount"))).sum =
    (t.rows.map (fun r => toZ (getV r "line_amount"))).sum
  have hpt : ∀ k ∈ (t.rows.map (keyOf gcols)).dedup,
      toZ (getV ((gcols.zip k) ++
        [("sale_amount", Value.vNum
            (((t.rows.filter (fun r => keyOf gcols r == k)).map
              (fun r => toZ (getV r "line_amount"))).sum)),
         ("sale_count", Value.vNum
            ((((t.rows.filter (fun r => keyOf gcols r == k)).filter
              (fun r => isNotNull (getV r "line_amount"))).length : ℤ)))]) "sale_amount") =
        ((t.rows.filter (fun r => keyOf gcols r == k)).map
          (fun r => toZ (getV r "line_amount"))).sum := by
    intro k _
    rw [getV_append_skip _ _ _ (zip_keys_skip gcols k _ h), getV_cons_self]
    rfl
  have hmaps : (((t.rows.map (keyOf gcols)).dedup).map (fun k =>
      (gcols.zip k) ++
        [("sale_amount", Value.vNum
            (((t.rows.filter (fun r => keyOf gcols r == k)).map
              (fun r => toZ (getV r "line_amount"))).sum)),
         ("sale_count", Value.vNum
            ((((t.rows.filter (fun r => keyOf gcols r == k)).filter
              (fun r => isNotNull (getV r "line_amount"))).length : ℤ)))])).map
        (fun r => toZ (getV r "sale_amount")) =
      ((t.rows.map (keyOf gcols)).dedup).map (fun k =>
        ((t.rows.filter (fun r => keyOf gcols r == k)).map
          (fun r => toZ (getV r "line_amount"))).sum) := by
    rw [List.map_map]
    exact List.map_congr_left hpt
  exact (congrArg List.sum hmaps).trans
    (sum_over_partition (keyOf gcols) _ _ (List.nodup_dedup _) t.rows
      (fun r hr => List.mem_dedup.mpr (List.mem_map_of_mem _ hr)))

/-- Total `sale_count` of a grouped table equals the number of non-null
line amounts. -/
theorem totalSaleCount_groupAgg (t : Table) (gcols : List String)
    (h : "sale_count" ∉ gcols) :
    totalSaleCount (groupAgg t gcols) =
      ((t.rows.filter (fun r => isNotNull (getV r "line_amount"))).length : ℤ) := by
  show ((((t.rows.map (keyOf gcols)).dedup).map (fun k =>
      (gcols.zip k) ++
        [("sale_amount", Value.vNum
            (((t.rows.filter (fun r => keyOf gcols r == k)).map
              (fun r => toZ (getV r "line_amount"))).sum)),
         ("sale_count", Value.vNum
            ((((t.rows.filter (fun r => keyOf gcols r == k)).filter
              (fun r => isNotNull (getV r "line_amount"))).length : ℤ)))])).map
        (fun r => toZ (getV r "sale_count"))).sum =
    ((t.rows.filter (fun r => isNotNull (getV r "line_amount"))).length : ℤ)
  have hpt : ∀ k ∈ (t.rows.map (keyOf gcols)).dedup,
      toZ (getV ((gcols.zip k) ++
        [("sale_amount", Value.vNum
            (((t.rows.filter (fun r => keyOf gcols r == k)).map
              (fun r => toZ (getV r "line_amount"))).sum)),
         ("sale_count", Value.vNum
            ((((t.rows.filter (fun r => keyOf gcols r == k)).filter
              (fun r => isNotNull (getV r "line_amount"))).length : ℤ)))]) "sale_count") =
        ((t.rows.filter (fun r => keyOf gcols r == k)).map
          (fun r => if isNotNull (getV r "line_amount") then (1 : ℤ) else 0)).sum := by
    intro k _
    rw [getV_append_skip _ _ _ (zip_keys_skip gcols k _ h),
      getV_cons_ne _ _ _ _ (by decide), getV_cons_self]
    exact length_filter_as_sum _ _
  have hmaps : (((t.rows.map (keyOf gcols)).dedup).map (fun k =>
      (gcols.zip k) ++
        [("sale_amount", Value.vNum
            (((t.rows.filter (fun r => keyOf gcols r == k)).map
              (fun r => toZ (getV r "line_amount"))).sum)),
         ("sale_count", Value.vNum
            ((((t.rows.filter (fun r => keyOf gcols r == k)).filter
              (fun r => isNotNull (getV r "line_amount"))).length : ℤ)))])).map
        (fun r => toZ (getV r "sale_count")) =
      ((t.rows.map (keyOf gcols)).dedup).map (fun k =>
        ((t.rows.filter (fun r => keyOf gcols r == k)).map
          (fun r => if isNotNull (getV r "line_amount") then (1 : ℤ) else 0)).sum) := by
    rw [List.map_map]
    exact List.map_congr_left hpt
  exact ((congrArg List.sum hmaps).trans
    (sum_over_partition (keyOf gcols) _ _ (List.nodup_dedup _) t.rows
      (fun r hr => List.mem_dedup.mpr (List.mem_map_of_mem _ hr)))).trans
    (length_filter_as_sum _ _).symm

/-- The grouping columns never capture the aggregate output columns. -/
theorem groupColsOf_not_agg (t : Table) :
    "sale_amount" ∉ groupColsOf t ∧ "sale_count" ∉ groupColsOf t := by
  unfold groupColsOf
  by_cases h1 : t.cols.contains "DATE" = true
  · by_cases h2 : t.cols.contains "NAME" = true
    · rw [if_pos h1, if_pos h2]; exact ⟨by decide, by decide⟩
    · rw [if_pos h1, if_neg h2]; exact ⟨by decide, by decide⟩
  · by_cases h2 : t.cols.contains "NAME" = true
    · rw [if_neg h1, if_pos h2]; exact ⟨by decide, by decide⟩
    · rw [if_neg h1, if_neg h2]; exact ⟨by decide, by decide⟩

/-- Total `sale_amount` of step 9 equals the total line amount, in both the
grouped and the degenerate single-row branch. -/
theorem totalSaleAmount_groupStep (t : Table) :
    totalSaleAmount (groupStep t) =
      (t.rows.map (fun r => toZ (getV r "line_amount"))).sum := by
  unfold groupStep
  split
  · exact totalSaleAmount_groupAgg t _ (groupColsOf_not_agg t).1
  · show ([toZ (getV [("sale_amount", Value.vNum
        ((t.rows.map (fun r => toZ (getV r "line_amount"))).sum)),
      ("sale_count", Value.vNum
        (((t.rows.filter (fun r => isNotNull (getV r "line_amount"))).length : ℤ)))]
        "sale_amount")]).sum = _
    rw [getV_cons_self]
    simp [toZ]

/-- Total `sale_count` of step 9 equals the number of non-null line
amounts, in both branches. -/
theorem totalSaleCount_groupStep (t : Table) :
    totalSaleCount (groupStep t) =
      ((t.rows.filter (fun r => isNotNull (getV r "line_amount"))).length : ℤ) := by
  unfold groupStep
  split
  · exact totalSaleCount_groupAgg t _ (groupColsOf_not_agg t).2
  · show ([toZ (getV [("sale_amount", Value.vNum
        ((t.rows.map (fun r => toZ (getV r "line_amount"))).sum)),
      ("sale_count", Value.vNum
        (((t.rows.filter (fun r => isNotNull (getV r "line_amount"))).length : ℤ)))]
        "sale_count")]).sum = _
    rw [getV_cons_ne _ _ _ _ (by decide), getV_cons_self]
    simp [toZ]

/-- Reading back the key columns of a grouped row recovers the group key. -/
theorem keyOf_zip_append :
    ∀ (gcols : List String) (k : List Value) (rest : Row), gcols.Nodup →
      k.length = gcols.length → keyOf gcols ((gcols.zip k) ++ rest) = k := by
  intro gcols
  induction gcols with
  | nil =>
    intro k rest _ hlen
    cases k with
    | nil => rfl
    | cons k0 k => simp at hlen
  | cons c0 gcols ih =>
    intro k rest hnd hlen
    cases k with
    | nil => simp at hlen
    | cons k0 k =>
      have hlen2 : k.length = gcols.length := by simpa using hlen
      show getV (((c0, k0) :: gcols.zip k) ++ rest) c0 ::
          gcols.map (getV (((c0, k0) :: gcols.zip k) ++ rest)) = k0 :: k
      have hnotmem : c0 ∉ gcols := (List.nodup_cons.mp hnd).1
      have hstep : ∀ c ∈ gcols,
          getV (((c0, k0) :: gcols.zip k) ++ rest) c = getV ((gcols.zip k) ++ rest) c := by
        intro c hc
        have hne : (c == c0) = false :=
          beq_eq_false_iff_ne.mpr (fun e => hnotmem (e ▸ hc))
        rw [List.cons_append, getV_cons_ne _ _ _ _ hne]
      rw [List.map_congr_left hstep, List.cons_append, getV_cons_self]
      exact congrArg (k0 :: ·) (ih k rest (List.nodup_cons.mp hnd).2 hlen2)

/-- The grouping columns of step 9 never repeat. -/
theorem groupColsOf_nodup (t : Table) : (groupColsOf t).Nodup := by
  unfold groupColsOf
  by_cases h1 : t.cols.contains "DATE" = true
  · by_cases h2 : t.cols.contains "NAME" = true
    · rw [if_pos h1, if_pos h2]; decide
    · rw [if_pos h1, if_neg h2]; decide
  · by_cases h2 : t.cols.contains "NAME" = true
    · rw [if_neg h1, if_pos h2]; decide
    · rw [if_neg h1, if_neg h2]; decide

/-- In every row of step 9, `sale_count` is the number of rows of the same
group whose line amount is non-null, in both branches. -/
theorem groupStep_count (t : Table) :
    ∀ row ∈ (groupStep t).rows,
      getV row "sale_count" = Value.vNum
        ((((t.rows.filter (fun r =>
            keyOf (groupColsOf t) r == keyOf (groupColsOf t) row)).filter
          (fun r => isNotNull (getV r "line_amount"))).length : ℤ)) := by
  intro row hrow
  unfold groupStep at hrow
  by_cases hgc : groupColsOf t ≠ []
  · rw [if_pos hgc] at hrow
    have hrow2 : row ∈ ((t.rows.map (keyOf (groupColsOf t))).dedup).map (fun k =>
        ((groupColsOf t).zip k) ++
          [("sale_amount", Value.vNum
              (((t.rows.filter (fun r => keyOf (groupColsOf t) r == k)).map
                (fun r => toZ (getV r "line_amount"))).sum)),
           ("sale_count", Value.vNum
              ((((t.rows.filter (fun r => keyOf (groupColsOf t) r == k)).filter
                (fun r => isNotNull (getV r "line_amount"))).length : ℤ)))]) := hrow
    obtain ⟨k, hk, heq⟩ := List.mem_map.mp hrow2
    have heq2 : ((groupColsOf t).zip k) ++
        [("sale_amount", Value.vNum
            (((t.rows.filter (fun r => keyOf (groupColsOf t) r == k)).map
              (fun r => toZ (getV r "line_amount"))).sum)),
         ("sale_count", Value.vNum
            ((((t.rows.filter (fun r => keyOf (groupColsOf t) r == k)).filter
              (fun r => isNotNull (getV r "line_amount"))).length : ℤ)))] = row := heq
    obtain ⟨r0, _, hkr⟩ := List.mem_map.mp (List.mem_dedup.mp hk)
    have hklen : k.length = (groupColsOf t).length := by
      rw [← hkr]
      exact List.length_map _ _
    have hkey : keyOf (groupColsOf t) row = k := by
      rw [← heq2]
      exact keyOf_zip_append (groupColsOf t) k _ (groupColsOf_nodup t) hklen
    rw [hkey, ← heq2,
      getV_append_skip _ _ _ (zip_keys_skip _ k _ (groupColsOf_not_agg t).2),
      getV_cons_ne _ _ _ _ (by decide), getV_cons_self]
  · rw [if_neg hgc] at hrow
    have hgc2 : groupColsOf t = [] := not_ne_iff.mp hgc
    have hrow2 : row = [("sale_amount", Value.vNum
        ((t.rows.map (fun r => toZ (getV r "line_amount"))).sum)),
      ("sale_count", Value.vNum
        (((t.rows.filter (fun r => isNotNull (getV r "line_amount"))).length : ℤ)))] := by
      simpa using hrow
    subst hrow2
    rw [hgc2]
    have hfilt : t.rows.filter (fun r => keyOf [] r == keyOf []
        [("sale_amount", Value.vNum
            ((t.rows.map (fun r => toZ (getV r "line_amount"))).sum)),
          ("sale_count", Value.vNum
            (((t.rows.filter (fun r => isNotNull (getV r "line_amount"))).length : ℤ)))]) =
        t.rows := List.filter_eq_self.mpr (fun a _ => rfl)
    rw [hfilt, getV_cons_ne _ _ _ _ (by decide), getV_cons_self]

/-- In every row of step 9, `sale_amount` is the sum of the null-skipping
line amounts of the rows of the same group, in both branches. -/
theorem groupStep_amount (t : Table) :
    ∀ row ∈ (groupStep t).rows,
      getV row "sale_amount" = Value.vNum
        (((t.rows.filter (fun r =>
            keyOf (groupColsOf t) r == keyOf (groupColsOf t) row)).map
          (fun r => toZ (getV r "line_amount"))).sum) := by
  intro row hrow
  unfold groupStep at hrow
  by_cases hgc : groupColsOf t ≠ []
  · rw [if_pos hgc] at hrow
    have hrow2 : row ∈ ((t.rows.map (keyOf (groupColsOf t))).dedup).map (fun k =>
        ((groupColsOf t).zip k) ++
          [("sale_amount", Value.vNum
              (((t.rows.filter (fun r => keyOf (groupColsOf t) r == k)).map
                (fun r => toZ (getV r "line_amount"))).sum)),
           ("sale_count", Value.vNum
              ((((t.rows.filter (fun r => keyOf (groupColsOf t) r == k)).filter
                (fun r => isNotNull (getV r "line_amount"))).length : ℤ)))]) := hrow
    obtain ⟨k, hk, heq⟩ := List.mem_map.mp hrow2
    have heq2 : ((groupColsOf t).zip k) ++
        [("sale_amount", Value.vNum
            (((t.rows.filter (fun r => keyOf (groupColsOf t) r == k)).map
              (fun r => toZ (getV r "line_amount"))).sum)),
         ("sale_count", Value.vNum
            ((((t.rows.filter (fun r => keyOf (groupColsOf t) r == k)).filter
              (fun r => isNotNull (getV r "line_amount"))).length : ℤ)))] = row := heq
    obtain ⟨r0, _, hkr⟩ := List.mem_map.mp (List.mem_dedup.mp hk)
    have hklen : k.length = (groupColsOf t).length := by
      rw [← hkr]
      exact List.length_map _ _
    have hkey : keyOf (groupColsOf t) row = k := by
      rw [← heq2]
      exact keyOf_zip_append (groupColsOf t) k _ (groupColsOf_nodup t) hklen
    rw [hkey, ← heq2,
      getV_append_skip _ _ _ (zip_keys_skip _ k _ (groupColsOf_not_agg t).1),
      getV_cons_self]
  · rw [if_neg hgc] at hrow
    have hgc2 : groupColsOf t = [] := not_ne_iff.mp hgc
    have hrow2 : row = [("sale_amount", Value.vNum
        ((t.rows.map (fun r => toZ (getV r "line_amount"))).sum)),
      ("sale_count", Value.vNum
        (((t.rows.filter (fun r => isNotNull (getV r "line_amount"))).length : ℤ)))] := by
      simpa using hrow
    subst hrow2
    rw [hgc2]
    have hfilt : t.rows.filter (fun r => keyOf [] r == keyOf []
        [("sale_amount", Value.vNum
            ((t.rows.map (fun r => toZ (getV r "line_amount"))).sum)),
          ("sale_count", Value.vNum
            (((t.rows.filter (fun r => isNotNull (getV r "line_amount"))).length : ℤ)))]) =
        t.rows := List.filter_eq_self.mpr (fun a _ => rfl)
    rw [hfilt, getV_cons_self]

/-! ## Pipeline-level aggregate facts -/

/-- With a non-empty journal, the grouped table of the pipeline is step 9
of the merged table, and the membership sets rewrite accordingly. -/
theorem groupedOf_nonempty (sid : String) (folder : Folder)
    (h : (jnlOf folder).isEmpty = false) :
    groupedOf sid folder = groupStep (merged4Of sid folder) ∧
      survivedRecords sid folder = (merged4Of sid folder).rows := by
  constructor
  · unfold groupedOf
    rw [if_neg (by simp [h])]
  · unfold survivedRecords
    rw [if_neg (by simp [h])]

/-- In every aggregated row of the pipeline, `sale_count` counts exactly the
group members with non-null line amount. -/
theorem groupedOf_count (sid : String) (folder : Folder) :
    ∀ row ∈ (groupedOf sid folder).rows,
      getV row "sale_count" = Value.vNum
        ((((groupMembers sid folder row).filter
          (fun r => isNotNull (getV r "line_amount"))).length : ℤ)) := by
  by_cases h : (jnlOf folder).isEmpty = true
  · intro row hrow
    have hrows : (groupedOf sid folder).rows = [] := by
      unfold groupedOf
      rw [if_pos h]
    exact absurd (hrows ▸ hrow) (List.not_mem_nil row)
  · have hf : (jnlOf folder).isEmpty = false := by simpa using h
    obtain ⟨hg, hs⟩ := groupedOf_nonempty sid folder hf
    intro row hrow
    rw [hg] at hrow
    unfold groupMembers
    rw [hs]
    exact groupStep_count (merged4Of sid folder) row hrow

/-- In every aggregated row of the pipeline, `sale_amount` sums the
null-skipping line amounts of the group members. -/
theorem groupedOf_amount (sid : String) (folder : Folder) :
    ∀ row ∈ (groupedOf sid folder).rows,
      getV row "sale_amount" = Value.vNum
        (((groupMembers sid folder row).map
          (fun r => toZ (getV r "line_amount"))).sum) := by
  by_cases h : (jnlOf folder).isEmpty = true
  · intro row hrow
    have hrows : (groupedOf sid folder).rows = [] := by
      unfold groupedOf
      rw [if_pos h]
    exact absurd (hrows ▸ hrow) (List.not_mem_nil row)
  · have hf : (jnlOf folder).isEmpty = false := by simpa using h
    obtain ⟨hg, hs⟩ := groupedOf_nonempty sid folder hf
    intro row hrow
    rw [hg] at hrow
    unfold groupMembers
    rw [hs]
    exact groupStep_amount (merged4Of sid folder) row hrow

/-- The total `sale_count` of a store equals the number of surviving
records with non-null line amount. -/
theorem totalSaleCount_process (sid : String) (folder : Folder) :
    totalSaleCount (process_store_data sid folder).1 =
      (((survivedRecords sid folder).filter
        (fun r => isNotNull (getV r "line_amount"))).length : ℤ) := by
  by_cases h : (jnlOf folder).isEmpty = true
  · rw [process_fst_empty _ _ h]
    unfold survivedRecords
    rw [if_pos h]
    rfl
  · have hf : (jnlOf folder).isEmpty = false := by simpa using h
    rw [process_fst_nonempty _ _ hf]
    obtain ⟨F, hrows, hget⟩ := finalizeStep_rows_fun sid
      (storeNameOf (strOf folder) sid) (groupStep (merged4Of sid folder))
    show ((finalizeStep sid (storeNameOf (strOf folder) sid)
        (groupStep (merged4Of sid folder))).rows.map
          (fun r => toZ (getV r "sale_count"))).sum = _
    rw [hrows]
    have hc : ((groupStep (merged4Of sid folder)).rows.map F).map
        (fun r => toZ (getV r "sale_count")) =
        (groupStep (merged4Of sid folder)).rows.map
          (fun r => toZ (getV r "sale_count")) := by
      rw [List.map_map]
      exact List.map_congr_left (fun r _ => congrArg toZ
        (hget "sale_count" (by decide) (by decide) (by decide) (by decide)
          (by decide) (by decide) (by decide) (by decide) r))
    rw [hc]
    unfold survivedRecords
    rw [if_neg (by simp [hf])]
    exact totalSaleCount_groupStep (merged4Of sid folder)

/-- The total `sale_amount` of a store equals the sum of the null-skipping
line amounts of the surviving records. -/
theorem totalSaleAmount_process (sid : String) (folder : Folder) :
    totalSaleAmount (process_store_data sid folder).1 =
      ((survivedRecords sid folder).map
        (fun r => toZ (getV r "line_amount"))).sum := by
  by_cases h : (jnlOf folder).isEmpty = true
  · rw [process_fst_empty _ _ h]
    unfold survivedRecords
    rw [if_pos h]
    rfl
  · have hf : (jnlOf folder).isEmpty = false := by simpa using h
    rw [process_fst_nonempty _ _ hf]
    obtain ⟨F, hrows, hget⟩ := finalizeStep_rows_fun sid
      (storeNameOf (strOf folder) sid) (groupStep (merged4Of sid folder))
    show ((finalizeStep sid (storeNameOf (strOf folder) sid)
        (groupStep (merged4Of sid folder))).rows.map
          (fun r => toZ (getV r "sale_amount"))).sum = _
    rw [hrows]
    have hc : ((groupStep (merged4Of sid folder)).rows.map F).map
        (fun r => toZ (getV r "sale_amount")) =
        (groupStep (merged4Of sid folder)).rows.map
          (fun r => toZ (getV r "sale_amount")) := by
      rw [List.map_map]
      exact List.map_congr_left (fun r _ => congrArg toZ
        (hget "sale_amount" (by decide) (by decide) (by decide) (by decide)
          (by decide) (by decide) (by decide) (by decide) r))
    rw [hc]
    unfold survivedRecords
    rw [if_neg (by simp [hf])]
    exact totalSaleAmount_groupStep (merged4Of sid folder)

/-! ## Rows used by the witnesses -/

/-- The single summary row produced for `folderPair`. -/
def rowPair : Row :=
  [("Astoreid", Value.vStr "1"), ("Storename", Value.vStr "1"),
   ("date", Value.vNull), ("Type", Value.vStr "Sale"),
   ("sale_amount", Value.vNum 15), ("sale_count", Value.vNum 2),
   ("currency", Value.vStr "USD")]

/-- The single aggregated (pre-finalize) row produced for `folderPair`. -/
def gRowPair : Row :=
  [("NAME", Value.vStr "Sale"), ("sale_amount", Value.vNum 15),
   ("sale_count", Value.vNum 2)]

/-- The single summary row produced for `folderShop`. -/
def rowShop : Row :=
  [("Astoreid", Value.vStr "7"), ("Storename", Value.vStr "Shop"),
   ("date", Value.vNull), ("Type", Value.vStr "Sale"),
   ("sale_amount", Value.vNum 15), ("sale_count", Value.vNum 2),
   ("currency", Value.vStr "USD")]

/-- The first surviving merged record of `folderPair`. -/
def survPair : Row :=
  [("LINE", Value.vStr "950"), ("CAT", Value.vStr "A"), ("PRICE", Value.vNum 10),
   ("QTY", Value.vNum 1), ("DESCRIPT", Value.vNull), ("CODE", Value.vStr "N"),
   ("NAME", Value.vStr "Sale"), ("line_amount", Value.vNum 10)]

/-! ## Claims -/

/-- C1, counterexample: the journal of `folderPair` contains exactly one
adjacent (950, 980) pair, so under the claimed sliding-pair reconstruction
the store would report one sale event in total (each event has count 1 and
aggregation sums counts); the engine instead reports a total sale count
of 2, one per merged journal record. -/
theorem C1_counterexample :
    countPairs950980 (jnlOf folderPair) = 1 ∧
    totalSaleCount (process_store_data "1" folderPair).1 = 2 ∧
    totalSaleCount (process_store_data "1" folderPair).1 ≠
      (countPairs950980 (jnlOf folderPair) : ℤ) := by
  decide

/-- C1, amended: the engine performs no adjacent-pair (950/980)
reconstruction; every merged journal record surviving the category filter
counts as one line (when its computed amount is non-null), so the total
sale count equals the number of such surviving records, independent of the
`Line` field and of the number of 950/980 pairs. -/
theorem C1_no_pair_reconstruction (sid : String) (folder : Folder) :
    totalSaleCount (process_store_data sid folder).1 =
      (((survivedRecords sid folder).filter
        (fun r => isNotNull (getV r "line_amount"))).length : ℤ) :=
  totalSaleCount_process sid folder

/-- C2, code bug: for a store whose journal has one record and whose
category table is absent, the code inserts a null placeholder `CODE`
column and then still applies the `CODE == N` filter, dropping every
record; the spec requires the filter to be skipped entirely. -/
theorem C2_missing_cat_drops_all_rows :
    (jnlOf folderNoCat).rows.length = 1 ∧
    (catOf folderNoCat).isEmpty = true ∧
    (merged2Of "1" folderNoCat).cols.contains "CODE" = true ∧
    (merged3Of "1" folderNoCat).rows = [] ∧
    (process_store_data "1" folderNoCat).1.rows = [] := by
  decide

/-- C3, counterexample: `folderNoGroupCols` has a non-empty journal, no
950/980 pairs, and zero records surviving to aggregation, yet the store
contributes one summary row of zeros (its merged schema has neither a
`DATE` nor a `NAME` column, so the degenerate single-row branch fires). -/
theorem C3_counterexample :
    (jnlOf folderNoGroupCols).rows ≠ [] ∧
    countPairs950980 (jnlOf folderNoGroupCols) = 0 ∧
    survivedRecords "1" folderNoGroupCols = [] ∧
    ((process_store_data "1" folderNoGroupCols).1.rows.map
      (fun r => (getV r "sale_amount", getV r "sale_count"))) =
      [(Value.vNum 0, Value.vNum 0)] := by
  decide

/-- C3, amended: a store with a non-empty journal and zero records
surviving to aggregation contributes zero summary rows whenever the merged
schema retains a grouping column (`DATE` or `NAME`); when it retains
neither, the store instead contributes exactly one row with zero
sale amount and zero sale count. -/
theorem C3_zero_survivors_rows (sid : String) (folder : Folder)
    (hne : (jnlOf folder).isEmpty = false)
    (hz : (merged4Of sid folder).rows = []) :
    (groupColsOf (merged4Of sid folder) ≠ [] →
        (process_store_data sid folder).1.rows = []) ∧
    (groupColsOf (merged4Of sid folder) = [] →
        ∃ r, (process_store_data sid folder).1.rows = [r] ∧
          getV r "sale_amount" = Value.vNum 0 ∧
          getV r "sale_count" = Value.vNum 0) := by
  obtain ⟨F, hrows, hget⟩ := finalizeStep_rows_fun sid
    (storeNameOf (strOf folder) sid) (groupStep (merged4Of sid folder))
  constructor
  · intro hgc
    rw [process_fst_nonempty _ _ hne, hrows]
    have hempty : (groupStep (merged4Of sid folder)).rows = [] := by
      unfold groupStep
      rw [if_pos hgc]
      show (((merged4Of sid folder).rows.map
        (keyOf (groupColsOf (merged4Of sid folder)))).dedup).map _ = []
      rw [hz]
      rfl
    rw [hempty]
    exact List.map_nil
  · intro hgc
    have hsingle : (groupStep (merged4Of sid folder)).rows =
        [[("sale_amount", Value.vNum 0), ("sale_count", Value.vNum 0)]] := by
      unfold groupStep
      rw [if_neg (by simp [hgc]), hz]
      rfl
    rw [process_fst_nonempty _ _ hne, hrows, hsingle]
    refine ⟨F [("sale_amount", Value.vNum 0), ("sale_count", Value.vNum 0)], rfl, ?_, ?_⟩
    · rw [hget "sale_amount" (by decide) (by decide) (by decide) (by decide)
        (by decide) (by decide) (by decide) (by decide)]
      exact getV_cons_self _ _ _
    · rw [hget "sale_count" (by decide) (by decide) (by decide) (by decide)
        (by decide) (by decide) (by decide) (by decide),
        getV_cons_ne _ _ _ _ (by decide)]
      exact getV_cons_self _ _ _

/-- C3, witness: at `folderNoGroupCols` the no-grouping-columns branch of
the amended claim applies and yields the single row of zeros. -/
theorem C3_zero_survivors_rows_witness :
    ∃ r, (process_store_data "1" folderNoGroupCols).1.rows = [r] ∧
      getV r "sale_amount" = Value.vNum 0 ∧
      getV r "sale_count" = Value.vNum 0 :=
  (C3_zero_survivors_rows "1" folderNoGroupCols (by decide) (by decide)).2 (by decide)

/-- C4, counterexample: a folder holding the journal only as `JNL.DBF`
matches the expected name `jnl.dbf` case-insensitively, yet the reader
resolves by exact name and returns the empty table with a warning. -/
theorem C4_counterexample :
    specResolvesCaseInsensitive folderUpper "jnl.dbf" = true ∧
    (folderUpper.lookup "JNL.DBF").isSome = true ∧
    read_dbf_to_df folderUpper "jnl.dbf" =
      (Table.empty, ["Warning: Missing DBF: jnl.dbf"]) := by
  decide

/-- C4, amended: the reader resolves the expected file name by exact
literal match; when the exact name is present it returns that table with
no diagnostic, and when it is absent (including when only a differently
cased variant exists) it returns an empty table together with a warning
diagnostic, never an error. -/
theorem C4_exact_name_reader (folder : Folder) (fname : String) :
    (∀ t, folder.lookup fname = some t → read_dbf_to_df folder fname = (t, [])) ∧
    (folder.lookup fname = none →
      read_dbf_to_df folder fname =
        (Table.empty, ["Warning: Missing DBF: " ++ fname])) := by
  constructor
  · intro t ht
    unfold read_dbf_to_df
    rw [ht]
  · intro hn
    unfold read_dbf_to_df
    rw [hn]

/-- C4, witness: reading the journal of an empty folder yields the empty
table and the missing-file diagnostic. -/
theorem C4_exact_name_reader_witness :
    read_dbf_to_df folderEmpty "jnl.dbf" =
      (Table.empty, ["Warning: Missing DBF: jnl.dbf"]) :=
  (C4_exact_name_reader folderEmpty "jnl.dbf").2 (by decide)

/-- C5: every summary row of any store has exactly the seven output fields
in schema order, and its currency field is the literal `USD`. -/
theorem C5_seven_fields_currency (sid : String) (folder : Folder) :
    ∀ r ∈ (process_store_data sid folder).1.rows,
      r.map Prod.fst = sevenCols ∧ getV r "currency" = Value.vStr "USD" := by
  intro r hr
  by_cases h : (jnlOf folder).isEmpty = true
  · rw [process_fst_empty _ _ h] at hr
    exact absurd hr (List.not_mem_nil r)
  · have hf : (jnlOf folder).isEmpty = false := by simpa using h
    rw [process_fst_nonempty _ _ hf] at hr
    obtain ⟨hkeys, hcur, _, _⟩ := finalizeStep_mem _ _ _ r hr
    exact ⟨hkeys, hcur⟩

/-- C5, witness: the summary row of `folderPair` has the seven fields and
the `USD` currency. -/
theorem C5_seven_fields_currency_witness :
    rowPair.map Prod.fst = sevenCols ∧ getV rowPair "currency" = Value.vStr "USD" :=
  C5_seven_fields_currency "1" folderPair rowPair (by decide)

/-- C6, counterexample: at `folderNullPrice` one record survives the
category filter (one reconstructed event), yet its group reports a sale
count of 0 because the computed line amount is null; the claim that
sale_count equals the number of contributing events, each counting 1,
fails. -/
theorem C6_counterexample :
    (survivedRecords "1" folderNullPrice).length = 1 ∧
    (groupedOf "1" folderNullPrice).rows.length = 1 ∧
    totalSaleCount (process_store_data "1" folderNullPrice).1 = 0 := by
  decide

/-- C6, amended: aggregation is sum-preserving — the total sale amount of
a store equals the sum of the null-skipping line amounts over the records
surviving the category filter — and within each group sale_count equals
the number of group members whose line amount is non-null. -/
theorem C6_sum_preserving (sid : String) (folder : Folder) :
    totalSaleAmount (process_store_data sid folder).1 =
      ((survivedRecords sid folder).map (fun r => toZ (getV r "line_amount"))).sum ∧
    ∀ row ∈ (groupedOf sid folder).rows,
      getV row "sale_count" = Value.vNum
        ((((groupMembers sid folder row).filter
          (fun r => isNotNull (getV r "line_amount"))).length : ℤ)) :=
  ⟨totalSaleAmount_process sid folder, groupedOf_count sid folder⟩

/-- C6, witness: at `folderPair` the sum is preserved and the single group
row counts its two non-null members. -/
theorem C6_sum_preserving_witness :
    totalSaleAmount (process_store_data "1" folderPair).1 =
      ((survivedRecords "1" folderPair).map (fun r => toZ (getV r "line_amount"))).sum ∧
    getV gRowPair "sale_count" = Value.vNum
      ((((groupMembers "1" folderPair gRowPair).filter
        (fun r => isNotNull (getV r "line_amount"))).length : ℤ)) :=
  ⟨(C6_sum_preserving "1" folderPair).1,
   (C6_sum_preserving "1" folderPair).2 gRowPair (by decide)⟩

/-- C7: a store whose journal table is absent or empty contributes zero
summary rows and triggers the no-journal warning diagnostic. -/
theorem C7_empty_journal_zero_rows (sid : String) (folder : Folder)
    (h : (jnlOf folder).rows = []) :
    (process_store_data sid folder).1.rows = [] ∧
      ("Warning: No jnl data for store " ++ sid ++ ".") ∈
        (process_store_data sid folder).2 := by
  have hb : (jnlOf folder).isEmpty = true := by simp [Table.isEmpty, h]
  constructor
  · rw [process_fst_empty _ _ hb]
  · rw [process_store_data_eq, if_pos hb]
    show _ ∈ (read_dbf_to_df folder "str.dbf").2 ++ (read_dbf_to_df folder "cat.dbf").2 ++
      (read_dbf_to_df folder "jnh.dbf").2 ++ (read_dbf_to_df folder "jnl.dbf").2 ++
      ["Warning: No jnl data for store " ++ sid ++ "."]
    simp

/-- C7, witness: the empty folder yields zero rows and the warning. -/
theorem C7_empty_journal_zero_rows_witness :
    (process_store_data "1" folderEmpty).1.rows = [] ∧
      ("Warning: No jnl data for store " ++ "1" ++ ".") ∈
        (process_store_data "1" folderEmpty).2 :=
  C7_empty_journal_zero_rows "1" folderEmpty (by decide)

/-- C8: every summary row carries as store name the string value of the
first row of the `str` table when that table is non-empty and has a
`NAME` column, and the store identifier itself otherwise. -/
theorem C8_store_name_fallback (sid : String) (folder : Folder) :
    ∀ r ∈ (process_store_data sid folder).1.rows,
      getV r "Storename" = Value.vStr
        (match (strOf folder).rows with
         | fr :: _ =>
             if (strOf folder).cols.contains "NAME" then pyStr (getV fr "NAME") else sid
         | [] => sid) := by
  intro r hr
  by_cases h : (jnlOf folder).isEmpty = true
  · rw [process_fst_empty _ _ h] at hr
    exact absurd hr (List.not_mem_nil r)
  · have hf : (jnlOf folder).isEmpty = false := by simpa using h
    rw [process_fst_nonempty _ _ hf] at hr
    have hsn := (finalizeStep_mem _ _ _ r hr).2.2.1
    rw [hsn]
    rfl

/-- C8, witness: with a store table naming the shop, the summary row reads
that name. -/
theorem C8_store_name_fallback_witness :
    getV rowShop "Storename" = Value.vStr "Shop" :=
  C8_store_name_fallback "7" folderShop rowShop (by decide)

/-- C9: the line amount of every surviving record follows the fixed column
precedence of the merged schema: price times quantity when both columns
exist, else price alone, else the amount column, else the constant 0. -/
theorem C9_line_amount_precedence (sid : String) (folder : Folder) :
    ∀ r ∈ survivedRecords sid folder,
      getV r "line_amount" =
        (if (merged3Of sid folder).cols.contains "PRICE" then
          (if (merged3Of sid folder).cols.contains "QTY" then
            mulV (getV r "PRICE") (getV r "QTY")
          else getV r "PRICE")
        else if (merged3Of sid folder).cols.contains "AMT" then getV r "AMT"
        else Value.vNum 0) := by
  intro r hr
  unfold survivedRecords at hr
  by_cases h : (jnlOf folder).isEmpty = true
  · rw [if_pos h] at hr
    exact absurd hr (List.not_mem_nil r)
  · have hf : (jnlOf folder).isEmpty = false := by simpa using h
    rw [if_neg (by simp [hf])] at hr
    unfold merged4Of lineAmountStep at hr
    by_cases hP : (merged3Of sid folder).cols.contains "PRICE" = true
    · by_cases hQ : (merged3Of sid folder).cols.contains "QTY" = true
      · rw [if_pos hP, if_pos hQ] at hr
        have hr2 : r ∈ (merged3Of sid folder).rows.map (fun r0 =>
            setBinding r0 "line_amount"
              (mulV (getV r0 "PRICE") (getV r0 "QTY"))) := hr
        obtain ⟨r0, _, heq⟩ := List.mem_map.mp hr2
        have heq2 : setBinding r0 "line_amount"
            (mulV (getV r0 "PRICE") (getV r0 "QTY")) = r := heq
        rw [if_pos hP, if_pos hQ, ← heq2, getV_setBinding_self,
          getV_setBinding_ne _ _ _ _ (by decide),
          getV_setBinding_ne _ _ _ _ (by decide)]
      · rw [if_pos hP, if_neg hQ] at hr
        have hr2 : r ∈ (merged3Of sid folder).rows.map (fun r0 =>
            setBinding r0 "line_amount" (getV r0 "PRICE")) := hr
        obtain ⟨r0, _, heq⟩ := List.mem_map.mp hr2
        have heq2 : setBinding r0 "line_amount" (getV r0 "PRICE") = r := heq
        rw [if_pos hP, if_neg hQ, ← heq2, getV_setBinding_self,
          getV_setBinding_ne _ _ _ _ (by decide)]
    · by_cases hA : (merged3Of sid folder).cols.contains "AMT" = true
      · rw [if_neg hP, if_pos hA] at hr
        have hr2 : r ∈ (merged3Of sid folder).rows.map (fun r0 =>
            setBinding r0 "line_amount" (getV r0 "AMT")) := hr
        obtain ⟨r0, _, heq⟩ := List.mem_map.mp hr2
        have heq2 : setBinding r0 "line_amount" (getV r0 "AMT") = r := heq
        rw [if_neg hP, if_pos hA, ← heq2, getV_setBinding_self,
          getV_setBinding_ne _ _ _ _ (by decide)]
      · rw [if_neg hP, if_neg hA] at hr
        have hr2 : r ∈ (merged3Of sid folder).rows.map (fun r0 =>
            setBinding r0 "line_amount" (Value.vNum 0)) := hr
        obtain ⟨r0, _, heq⟩ := List.mem_map.mp hr2
        have heq2 : setBinding r0 "line_amount" (Value.vNum 0) = r := heq
        rw [if_neg hP, if_neg hA, ← heq2, getV_setBinding_self]

/-- C9, witness: the first surviving record of `folderPair` carries
price times quantity as its line amount. -/
theorem C9_line_amount_precedence_witness :
    getV survPair "line_amount" =
      (if (merged3Of "1" folderPair).cols.contains "PRICE" then
        (if (merged3Of "1" folderPair).cols.contains "QTY" then
          mulV (getV survPair "PRICE") (getV survPair "QTY")
        else getV survPair "PRICE")
      else if (merged3Of "1" folderPair).cols.contains "AMT" then getV survPair "AMT"
      else Value.vNum 0) :=
  C9_line_amount_precedence "1" folderPair survPair (by decide)

/-- C10: in every aggregation group, including the degenerate
no-grouping-columns single row, sale_count counts exactly the group
members whose computed line amount is non-null, and sale_amount sums the
members with null amounts contributing nothing. -/
theorem C10_group_count_non_null (sid : String) (folder : Folder) :
    ∀ row ∈ (groupedOf sid folder).rows,
      getV row "sale_count" = Value.vNum
        ((((groupMembers sid folder row).filter
          (fun r => isNotNull (getV r "line_amount"))).length : ℤ)) ∧
      getV row "sale_amount" = Value.vNum
        (((groupMembers sid folder row).map
          (fun r => toZ (getV r "line_amount"))).sum) :=
  fun row hrow =>
    ⟨groupedOf_count sid folder row hrow, groupedOf_amount sid folder row hrow⟩

/-- C10, witness: the single group row of `folderPair` counts its two
non-null members and sums their amounts. -/
theorem C10_group_count_non_null_witness :
    getV gRowPair "sale_count" = Value.vNum
      ((((groupMembers "1" folderPair gRowPair).filter
        (fun r => isNotNull (getV r "line_amount"))).length : ℤ)) ∧
    getV gRowPair "sale_amount" = Value.vNum
      (((groupMembers "1" folderPair gRowPair).map
        (fun r => toZ (getV r "line_amount"))).sum) :=
  C10_group_count_non_null "1" folderPair gRowPair (by decide)

end MonthlySalesReport
